import Mathlib

/-!
# Shopearn Pro backend — shallow embedding and verification

This file embeds the core of `src/main.py` / `src/schemas.py` (an affiliate
marketplace backend) in Lean 4 and proves properties of the catalog search,
partial update, admin link table and redirect/attribution operations.

Modelling conventions:
* MongoDB collections become association lists `List (String × α)` keyed by the
  (store-generated, opaque) `_id` string; `find_one({"_id": ...})` is
  `List.lookup`, `find_one({})` is `List.head?`, inserts append.
* Python `datetime` values become `Nat` timestamps; `float` fields (`price`,
  `rating`) carry no arithmetic in the code, so they are modelled as exact `Rat`.
* Python `dict` values (`links`, `meta`, `details`) become association lists.
* `HTTPException` becomes `Except Err`; handlers return `Except Err ρ × DB`
  (result together with the post-state of the store).
* best-effort (`try`/`except: pass`) telemetry writes take an explicit Bool
  failure-injection flag: `true` means the write raised and was swallowed.
* MongoDB's `$regex` operator (used by `list_products` with `$options: "i"`)
  is modelled for the pattern fragment the proofs need: literal characters
  matched ASCII-case-insensitively and `.` matching any single character,
  searched unanchored, exactly as the real engine treats such patterns.
* Python's `str.lower()` is modelled by `strLower` (per-character ASCII case
  folding via `Char.toLower`).
-/

/-- `schemas.py: class User` — one document of the `user` collection. -/
structure User where
  role : String
  name : String
  email : String
  password_hash : String
  phone : Option String := none
  photo_url : Option String := none
  age : Option Int := none
  gender : Option String := none
  is_active : Bool := true
  ad_free : Bool := false
  subscription_expiry : Option Nat := none
deriving DecidableEq

/-- `schemas.py: class Product` — one document of the `product` collection.
`updated_at` is the storage-layer timestamp that `my_products` sorts by and
`update_product` stamps. -/
structure Product where
  affiliate_id : String
  images : List String := []
  title : String
  description : Option String := none
  price : Rat
  vendor : String
  category : Option String := none
  tags : List String := []
  rating : Option Rat := none
  hot_deal : Bool := false
  hot_deal_expiry : Option Nat := none
  featured : Bool := false
  clicks : Int := 0
  orders : Int := 0
  affiliate_link : Option String := none
  updated_at : Nat := 0
deriving DecidableEq

/-- `schemas.py: class Click` — append-only click event. -/
structure Click where
  type : String
  user_id : Option String := none
  product_id : Option String := none
  affiliate_id : Option String := none
  ip : Option String := none
  meta : List (String × String) := []
deriving DecidableEq

/-- `schemas.py: class AdminSettings` — the platform → URL link map singleton
(plus the storage-layer `updated_at` stamp that `set_links` refreshes). -/
structure AdminSettingsDoc where
  links : List (String × String) := []
  updated_at : Nat := 0
deriving DecidableEq

/-- `schemas.py: class AdminAuditLog` — append-only admin action record. -/
structure AdminAuditLog where
  admin_id : String
  action : String
  details : List (String × String) := []
deriving DecidableEq

/-- The Document Store state: the collections the verified endpoints touch. -/
structure DB where
  users : List (String × User) := []
  products : List (String × Product) := []
  clicks : List Click := []
  adminsettings : List AdminSettingsDoc := []
  auditlogs : List AdminAuditLog := []
deriving DecidableEq

/-- An `HTTPException(status_code, detail)`. -/
structure Err where
  code : Nat
  detail : String
deriving DecidableEq

/-- `main.py: class ProductCreateRequest`. -/
structure ProductCreateRequest where
  images : List String := []
  title : String
  description : Option String := none
  price : Rat
  vendor : String
  category : Option String := none
  tags : List String := []
  rating : Option Rat := none
  affiliate_link : Option String := none
  hot_deal : Bool := false
  hot_deal_expiry : Option Nat := none
deriving DecidableEq

/-- `main.py: class ProductUpdateRequest` — every field optional; a `none`
field was absent from the PATCH body (pydantic `exclude_none=True` also drops
explicit nulls, so `none` uniformly means "not supplied"). -/
structure ProductUpdateRequest where
  images : Option (List String) := none
  title : Option String := none
  description : Option String := none
  price : Option Rat := none
  vendor : Option String := none
  category : Option String := none
  tags : Option (List String) := none
  rating : Option Rat := none
  affiliate_link : Option String := none
  hot_deal : Option Bool := none
  hot_deal_expiry : Option Nat := none
  featured : Option Bool := none
deriving DecidableEq

/-! ## The MongoDB `$regex`/`$options: "i"` matcher

`list_products` builds `{"$regex": q, "$options": "i"}` filters. We model the
engine on the pattern fragment exercised here: each pattern character is either
the metacharacter `.` (matches any one character) or a literal (matched up to
ASCII case); the pattern is searched at every position (unanchored), which is
exactly MongoDB's behaviour for such patterns. -/

/-- Does the pattern match a prefix of the text? (`.` is the wildcard;
literals compare case-insensitively.) -/
def matchHere : List Char → List Char → Bool
  | [], _ => true
  | _ :: _, [] => false
  | p :: ps, c :: cs => (p = '.' || p.toLower = c.toLower) && matchHere ps cs

/-- Unanchored search: does the pattern match starting at some position? -/
def regexFind (ps : List Char) : List Char → Bool
  | [] => matchHere ps []
  | c :: cs => matchHere ps (c :: cs) || regexFind ps cs

/-- `{"field": {"$regex": pat, "$options": "i"}}` on a present string field. -/
def regexSearchI (pat s : String) : Bool :=
  regexFind pat.data s.data

/-- The spec's reading of the free-text filter: `q` occurs in `s` as a plain
substring, compared ASCII-case-insensitively. -/
def containsCI (q s : String) : Prop :=
  (q.data.map Char.toLower) <:+: (s.data.map Char.toLower)

instance (q s : String) : Decidable (containsCI q s) :=
  List.decidableInfix _ _

/-! ## Catalog service (`main.py`) -/

/-- The filter document built by `list_products` (lines 173–183), applied to
one product: `$or` of three case-insensitive regexes when `q` is truthy,
exact `category` equality when truthy, exact `hot_deal` equality when the
`hot` parameter is present (including `hot=false`). A regex/equality filter on
an absent (`None`) field matches no document. -/
def productMatches (q category : Option String) (hot : Option Bool) (p : Product) : Bool :=
  (match q with
   | none => true
   | some qs =>
     if qs = "" then true
     else
       regexSearchI qs p.title
       || (match p.description with | none => false | some d => regexSearchI qs d)
       || (match p.category with | none => false | some c => regexSearchI qs c)) &&
  (match category with
   | none => true
   | some c => if c = "" then true else p.category = some c) &&
  (match hot with
   | none => true
   | some h => p.hot_deal = h)

/-- PyMongo `cursor.limit(n)`: `n = 0` means no limit; otherwise at most
`|n|` documents are returned. -/
def applyLimit (n : Int) (xs : List (String × Product)) : List (String × Product) :=
  if n = 0 then xs else xs.take n.natAbs

/-- `GET /products` — `main.py: list_products` (lines 171–187). The handler's
declared default for `limit` is 50. -/
def list_products (s : DB) (q category : Option String) (hot : Option Bool)
    (limit : Int) : List (String × Product) :=
  applyLimit limit (s.products.filter (fun e => productMatches q category hot e.2))

/-- The `limit` default declared in the route signature (`limit: int = 50`). -/
def defaultLimit : Int := 50

/-- `POST /affiliate/products` — `main.py: create_product` (lines 140–160).
`pid` is the store-generated id for the new document; `now` the storage-layer
timestamp. The inserted `Product` takes `clicks`, `orders` and `featured`
from the schema defaults (`0`, `0`, `false`). `create_document` itself lives
in the repository's `database.py`, absent from `src/`; per the spec it is the
external Document Store collaborator that appends the record. -/
def create_product (s : DB) (req : ProductCreateRequest) (user_id : String)
    (pid : String) (now : Nat) : Except Err String × DB :=
  match s.users.lookup user_id with
  | none => (.error ⟨403, "Only affiliates can upload"⟩, s)
  | some aff =>
    if aff.role ≠ "affiliate" then (.error ⟨403, "Only affiliates can upload"⟩, s)
    else
      let prod : Product :=
        { affiliate_id := user_id
          images := req.images
          title := req.title
          description := req.description
          price := req.price
          vendor := req.vendor
          category := req.category
          tags := req.tags
          rating := req.rating
          hot_deal := req.hot_deal
          hot_deal_expiry := req.hot_deal_expiry
          affiliate_link := req.affiliate_link
          updated_at := now }
      (.ok pid, { s with products := s.products ++ [(pid, prod)] })

/-- The `$set` document built by `update_product` (line 206–207):
`model_dump(exclude_none=True)` keeps exactly the supplied fields, plus the
fresh `updated_at` stamp. -/
def applyUpdate (req : ProductUpdateRequest) (now : Nat) (p : Product) : Product :=
  { p with
    images := req.images.getD p.images
    title := req.title.getD p.title
    description := match req.description with | none => p.description | some d => some d
    price := req.price.getD p.price
    vendor := req.vendor.getD p.vendor
    category := match req.category with | none => p.category | some c => some c
    tags := req.tags.getD p.tags
    rating := match req.rating with | none => p.rating | some r => some r
    affiliate_link := match req.affiliate_link with | none => p.affiliate_link | some l => some l
    hot_deal := req.hot_deal.getD p.hot_deal
    hot_deal_expiry := match req.hot_deal_expiry with | none => p.hot_deal_expiry | some t => some t
    featured := req.featured.getD p.featured
    updated_at := now }

/-- `update_one({"_id": pid}, {"$set"/"$inc": ...})` on the `product`
collection: rewrite the document(s) carrying that id. -/
def updateById (l : List (String × Product)) (pid : String) (f : Product → Product) :
    List (String × Product) :=
  l.map (fun e => if e.1 = pid then (e.1, f e.2) else e)

/-- `PATCH /affiliate/products/{product_id}` — `main.py: update_product`
(lines 199–209). -/
def update_product (s : DB) (product_id : String) (req : ProductUpdateRequest)
    (user_id : String) (now : Nat) : Except Err Unit × DB :=
  match s.products.lookup product_id with
  | none => (.error ⟨404, "Not found"⟩, s)
  | some prod =>
    if prod.affiliate_id ≠ user_id then (.error ⟨403, "Not owner"⟩, s)
    else
      (.ok (), { s with products := updateById s.products product_id (applyUpdate req now) })

/-! ## Admin console (`main.py`) -/

/-- The hardcoded admin credential pair checked by `set_links`/`admin_stats`. -/
def adminEmail : String := "shekharxlr8@gmail.com"

/-- See `adminEmail`. -/
def adminPassword : String := "Shekhar_4t7"

/-- `GET /admin/links` — `main.py: get_links` (lines 213–218):
`find_one({})` on `adminsettings`, empty map when no document exists. -/
def get_links (s : DB) : List (String × String) :=
  match s.adminsettings.head? with
  | none => []
  | some d => d.links

/-- `POST /admin/links` — `main.py: set_links` (lines 221–235). `auditFails`
injects a failure into the audit-log append, which the handler swallows
(`try`/`except: pass`). -/
def set_links (s : DB) (links : List (String × String))
    (admin_email admin_password : Option String) (now : Nat) (auditFails : Bool) :
    Except Err Unit × DB :=
  if admin_email = some adminEmail ∧ admin_password = some adminPassword then
    let s1 : DB :=
      match s.adminsettings with
      | [] => { s with adminsettings := [{ links := links, updated_at := now }] }
      | _ :: rest => { s with adminsettings := { links := links, updated_at := now } :: rest }
    let s2 : DB :=
      if auditFails then s1
      else { s1 with auditlogs := s1.auditlogs ++
              [{ admin_id := "hardcoded-admin", action := "update_links", details := links }] }
    (.ok (), s2)
  else
    (.error ⟨401, "Invalid admin credentials"⟩, s)

/-! ## Redirect / attribution (`main.py`) -/

/-- Python's `str.lower()` (ASCII fragment): lowercase every character. -/
def strLower (s : String) : String :=
  ⟨s.data.map Char.toLower⟩

/-- `GET /r/{platform}` — `main.py: redirect_platform` (lines 252–263):
resolve `platform.lower()` in the singleton's links map (Python truthiness:
a missing key or an empty URL both 404), then best-effort log a
`Click{type="logo"}`. `clickFails` injects a swallowed failure into that
append. On success the resolved URL is returned for the redirect. -/
def redirect_platform (s : DB) (platform : String) (user_id ip : Option String)
    (clickFails : Bool) : Except Err String × DB :=
  let links := (s.adminsettings.head?.map AdminSettingsDoc.links).getD []
  match links.lookup (strLower platform) with
  | none => (.error ⟨404, "Link not available yet."⟩, s)
  | some url =>
    if url = "" then (.error ⟨404, "Link not available yet."⟩, s)
    else
      let s1 : DB :=
        if clickFails then s
        else { s with clicks := s.clicks ++
                [{ type := "logo", user_id := user_id, product_id := none,
                   affiliate_id := none, ip := ip, meta := [("platform", platform)] }] }
      (.ok url, s1)

/-- `GET /r/product/{product_id}` — `main.py: redirect_product`
(lines 266–280): 404 when the product is absent or its `affiliate_link` is
falsy; otherwise best-effort `$inc` the `clicks` counter (`incFails` injects a
swallowed failure), best-effort append a `Click{type="product"}` (`clickFails`
likewise), and return the affiliate link. -/
def redirect_product (s : DB) (product_id : String) (user_id ip : Option String)
    (incFails clickFails : Bool) : Except Err String × DB :=
  match s.products.lookup product_id with
  | none => (.error ⟨404, "Affiliate link not available"⟩, s)
  | some prod =>
    match prod.affiliate_link with
    | none => (.error ⟨404, "Affiliate link not available"⟩, s)
    | some link =>
      if link = "" then (.error ⟨404, "Affiliate link not available"⟩, s)
      else
        let s1 : DB :=
          if incFails then s
          else { s with products :=
                  updateById s.products product_id (fun p => { p with clicks := p.clicks + 1 }) }
        let s2 : DB :=
          if clickFails then s1
          else { s1 with clicks := s1.clicks ++
                  [{ type := "product", user_id := user_id, product_id := some product_id,
                     affiliate_id := some prod.affiliate_id, ip := ip, meta := [] }] }
        (.ok link, s2)

deriving instance DecidableEq for Except

/-! ## Concrete fixtures for counterexamples and witnesses -/

/-- A stored product whose title is "abc" and whose description/category are
absent — exercised against the query "a.c". -/
def cexProduct4 : Product :=
  { affiliate_id := "a1", title := "abc", price := 1, vendor := "amazon" }

/-- Store holding only `cexProduct4`. -/
def cexDB4 : DB := { products := [("p4", cexProduct4)] }

/-- A stored product for the `limit = 0` experiment. -/
def cexProduct3 : Product :=
  { affiliate_id := "a1", title := "widget", price := 1, vendor := "amazon" }

/-- Store holding only `cexProduct3`. -/
def cexDB3 : DB := { products := [("p3", cexProduct3)] }

/-- AdminSettings whose links map stores the key with an uppercase letter. -/
def cexDB2 : DB :=
  { adminsettings := [{ links := [("Amazon", "https://amazon.example")] }] }

/-- A product with a non-empty affiliate link, for redirect witnesses. -/
def wProduct1 : Product :=
  { affiliate_id := "affA", title := "T-shirt", price := 10, vendor := "amazon",
    affiliate_link := some "https://vendor/x" }

/-- Store holding only `wProduct1`. -/
def wDB1 : DB := { products := [("p1", wProduct1)] }

/-- A matching product for the search-filter witness. -/
def wProduct4 : Product :=
  { affiliate_id := "a1", title := "Smartphone X", price := 5, vendor := "amazon",
    category := some "electronics", hot_deal := true }

/-- Store holding only `wProduct4`. -/
def wDB4 : DB := { products := [("pw4", wProduct4)] }

/-- An affiliate user, for the create-listing witness. -/
def wAffiliate : User :=
  { role := "affiliate", name := "A", email := "a@example.com", password_hash := "h" }

/-- Store holding only `wAffiliate`. -/
def wDB9 : DB := { users := [("affA", wAffiliate)] }

/-- A create request, for the create-listing witness. -/
def wCreateReq : ProductCreateRequest :=
  { title := "T-shirt", price := 10, vendor := "amazon",
    affiliate_link := some "https://vendor/x" }

/-- An update request carrying only a new price, for the partial-update witness. -/
def wPatchReq : ProductUpdateRequest := { price := some 999 }

/-- AdminSettings with a single lowercase key, for redirect witnesses. -/
def wDB2 : DB :=
  { adminsettings := [{ links := [("amazon", "https://amazon.example/aff")] }] }

/-! ## Helper lemmas -/

/-- `Char.ofNat` on a valid scalar value round-trips through `toNat`. -/
theorem toNat_ofNat_valid (n : Nat) (h : n.isValidChar) : (Char.ofNat n).toNat = n := by
  rw [Char.ofNat, dif_pos h]
  rfl

/-- ASCII lowercasing is idempotent. -/
theorem toLower_toLower (c : Char) : c.toLower.toLower = c.toLower := by
  unfold Char.toLower
  by_cases h : c.toNat ≥ 65 ∧ c.toNat ≤ 90
  · rw [if_pos h]
    have hv : (c.toNat + 32).isValidChar := Or.inl (by omega)
    rw [toNat_ofNat_valid _ hv, if_neg (by omega)]
  · rw [if_neg h, if_neg h]

/-- Python's `lower()` is idempotent. -/
theorem strLower_strLower (s : String) : strLower (strLower s) = strLower s := by
  unfold strLower
  refine congrArg String.mk ?_
  rw [List.map_map]
  exact List.map_congr_left fun c _ => toLower_toLower c

/-- A lookup whose key is under no entry of the list fails. -/
theorem lookup_eq_none_of_keys_ne {β : Type} (l : List (String × β)) (a : String)
    (h : ∀ e ∈ l, e.1 ≠ a) : l.lookup a = none := by
  induction l with
  | nil => rfl
  | cons e t ih =>
    obtain ⟨k, v⟩ := e
    have hne : k ≠ a := h (k, v) (List.mem_cons_self _ _)
    have hb : (a == k) = false := beq_eq_false_iff_ne.mpr fun he => hne he.symm
    simp only [List.lookup_cons, hb]
    exact ih fun x hx => h x (List.mem_cons_of_mem _ hx)

/-- `update_one({"_id": pid}, ...)` seen through a lookup: the looked-up
document is rewritten exactly when its id is the updated one. -/
theorem lookup_updateById (l : List (String × Product)) (pid j : String)
    (f : Product → Product) :
    (updateById l pid f).lookup j = (l.lookup j).map fun p => if j = pid then f p else p := by
  induction l with
  | nil => rfl
  | cons e t ih =>
    obtain ⟨k, v⟩ := e
    have hcons : updateById ((k, v) :: t) pid f
        = (if k = pid then (k, f v) else (k, v)) :: updateById t pid f := rfl
    rw [hcons]
    by_cases hj : j = k
    · by_cases hk : k = pid
      · rw [if_pos hk]
        simp [List.lookup_cons, hj, hk]
      · rw [if_neg hk]
        simp [List.lookup_cons, hj, hk]
    · have hb : (j == k) = false := beq_eq_false_iff_ne.mpr hj
      by_cases hk : k = pid
      · rw [if_pos hk]
        simp only [List.lookup_cons, hb, ih]
      · rw [if_neg hk]
        simp only [List.lookup_cons, hb, ih]

/-- Unanchored search succeeds exactly when the pattern matches at the head of
some suffix of the text. -/
theorem regexFind_iff (ps : List Char) (cs : List Char) :
    regexFind ps cs = true ↔ ∃ t, t <:+ cs ∧ matchHere ps t = true := by
  induction cs with
  | nil =>
    simp only [regexFind]
    constructor
    · exact fun h => ⟨[], List.suffix_rfl, h⟩
    · rintro ⟨t, ht, hm⟩
      rw [List.suffix_nil] at ht
      subst ht
      exact hm
  | cons c cs ih =>
    simp only [regexFind, Bool.or_eq_true, ih]
    constructor
    · rintro (h | ⟨t, ht, hm⟩)
      · exact ⟨c :: cs, List.suffix_rfl, h⟩
      · exact ⟨t, ht.trans (List.suffix_cons c cs), hm⟩
    · rintro ⟨t, ht, hm⟩
      rcases List.suffix_cons_iff.mp ht with h | h
      · subst h
        exact Or.inl hm
      · exact Or.inr ⟨t, h, hm⟩

/-- On a pattern with no metacharacter, anchored matching is prefix testing of
the lowercased sequences. -/
theorem matchHere_eq_prefix_lower (ps cs : List Char) (h : '.' ∉ ps) :
    matchHere ps cs = true ↔ ps.map Char.toLower <+: cs.map Char.toLower := by
  induction ps generalizing cs with
  | nil => simp [matchHere]
  | cons p ps ih =>
    cases cs with
    | nil => simp [matchHere]
    | cons c cs =>
      have hp : p ≠ '.' := fun he => h (he ▸ List.mem_cons_self p ps)
      have hps : '.' ∉ ps := fun hm => h (List.mem_cons_of_mem _ hm)
      simp [matchHere, hp, List.cons_prefix_cons, ih cs hps, Bool.and_eq_true]

/-- Every suffix of a mapped list is the image of a suffix. -/
theorem exists_suffix_of_map_suffix (f : Char → Char) (list : List Char) :
    ∀ t, t <:+ list.map f → ∃ u, u <:+ list ∧ t = u.map f := by
  induction list with
  | nil =>
    intro t ht
    rw [List.map_nil, List.suffix_nil] at ht
    exact ⟨[], List.suffix_rfl, by simp [ht]⟩
  | cons c cs ih =>
    intro t ht
    rw [List.map_cons] at ht
    rcases List.suffix_cons_iff.mp ht with h | h
    · exact ⟨c :: cs, List.suffix_rfl, by simp [h]⟩
    · obtain ⟨u, hu, rfl⟩ := ih t h
      exact ⟨u, hu.trans (List.suffix_cons c cs), rfl⟩

/-- On metacharacter-free patterns, the modelled `$regex`/`i` search is exactly
case-insensitive substring containment. -/
theorem regexSearchI_iff_containsCI (pat s : String) (h : '.' ∉ pat.data) :
    regexSearchI pat s = true ↔ containsCI pat s := by
  rw [regexSearchI, regexFind_iff, containsCI, List.infix_iff_prefix_suffix]
  constructor
  · rintro ⟨t, ht, hm⟩
    exact ⟨t.map Char.toLower, (matchHere_eq_prefix_lower _ _ h).mp hm, ht.map _⟩
  · rintro ⟨t', hpre, hsuf⟩
    obtain ⟨t, ht, rfl⟩ := exists_suffix_of_map_suffix _ _ _ hsuf
    exact ⟨t, ht, (matchHere_eq_prefix_lower _ _ h).mpr hpre⟩

/-! ## Claim theorems -/

/-- C1: for every stored product with a non-empty `affiliate_link`, a
successful `redirect_product` (no telemetry failure injected) returns that
link, bumps exactly that product's `clicks` by 1 leaving its other fields
intact, appends exactly one `Click{type="product"}` carrying the product id,
the product's `affiliate_id`, the caller's ip and empty meta, and writes
nothing else. -/
theorem redirect_product_success_effects (s : DB) (pid : String) (uid ip : Option String)
    (p : Product) (l : String)
    (hp : s.products.lookup pid = some p) (hl : p.affiliate_link = some l) (hne : l ≠ "") :
    (redirect_product s pid uid ip false false).1 = .ok l ∧
    (redirect_product s pid uid ip false false).2.products.lookup pid
        = some { p with clicks := p.clicks + 1 } ∧
    (redirect_product s pid uid ip false false).2.clicks
        = s.clicks ++ [{ type := "product", user_id := uid, product_id := some pid,
                         affiliate_id := some p.affiliate_id, ip := ip, meta := [] }] ∧
    (redirect_product s pid uid ip false false).2.users = s.users ∧
    (redirect_product s pid uid ip false false).2.adminsettings = s.adminsettings ∧
    (redirect_product s pid uid ip false false).2.auditlogs = s.auditlogs := by
  simp only [redirect_product]
  rw [hp]
  simp only [hl]
  rw [if_neg hne]
  refine ⟨rfl, ?_, rfl, rfl, rfl, rfl⟩
  simp [lookup_updateById, hp, hl]

/-- C1 witness: the scenario of the spec — one product, one redirect. -/
theorem redirect_product_success_effects_witness :
    wDB1.products.lookup "p1" = some wProduct1 ∧
    (redirect_product wDB1 "p1" (some "u9") (some "203.0.113.9") false false).1
        = .ok "https://vendor/x" ∧
    (redirect_product wDB1 "p1" (some "u9") (some "203.0.113.9") false false).2.products.lookup "p1"
        = some { wProduct1 with clicks := wProduct1.clicks + 1 } ∧
    (redirect_product wDB1 "p1" (some "u9") (some "203.0.113.9") false false).2.clicks
        = wDB1.clicks ++ [{ type := "product", user_id := some "u9", product_id := some "p1",
                            affiliate_id := some wProduct1.affiliate_id,
                            ip := some "203.0.113.9", meta := [] }] :=
  have h := redirect_product_success_effects wDB1 "p1" (some "u9") (some "203.0.113.9")
    wProduct1 "https://vendor/x" (by decide) (by decide) (by decide)
  ⟨by decide, h.1, h.2.1, h.2.2.1⟩

/-- C10: with a wrong admin credential, `set_links` fails with 401 and leaves
the entire store untouched — no AdminSettings write, no audit-log append. -/
theorem set_links_unauthorized_atomic (s : DB) (M : List (String × String))
    (e pw : Option String) (now : Nat) (f : Bool)
    (hbad : ¬ (e = some adminEmail ∧ pw = some adminPassword)) :
    set_links s M e pw now f = (.error ⟨401, "Invalid admin credentials"⟩, s) := by
  simp only [set_links, if_neg hbad]

/-- C10 witness: a wrong password at a concrete state. -/
theorem set_links_unauthorized_atomic_witness :
    set_links wDB2 [("x", "https://y")] (some adminEmail) (some "wrong") 7 false
        = (.error ⟨401, "Invalid admin credentials"⟩, wDB2) :=
  set_links_unauthorized_atomic wDB2 [("x", "https://y")] (some adminEmail) (some "wrong") 7 false
    (by decide)

/-- C8: with the correct credential (and at most one AdminSettings record),
`set_links M` followed by `get_links` returns exactly `M`; on an empty store
`get_links` returns the empty map. -/
theorem links_roundtrip :
    (∀ (s : DB) (M : List (String × String)) (now : Nat) (f : Bool)
        (r : Except Err Unit) (s' : DB),
        s.adminsettings.length ≤ 1 →
        set_links s M (some adminEmail) (some adminPassword) now f = (r, s') →
        get_links s' = M) ∧
    (∀ s : DB, s.adminsettings = [] → get_links s = []) := by
  constructor
  · intro s M now f r s' hlen hset
    have h2 : s' = (set_links s M (some adminEmail) (some adminPassword) now f).2 := by
      rw [hset]
    rw [h2]
    cases hs : s.adminsettings with
    | nil => cases f <;> simp [set_links, hs, get_links]
    | cons d rest => cases f <;> simp [set_links, hs, get_links]
  · intro s hs
    simp [get_links, hs]

/-- C8 witness: a concrete round-trip on an empty store and the empty-map read. -/
theorem links_roundtrip_witness :
    get_links (set_links { } [("amazon", "https://a")] (some adminEmail)
        (some adminPassword) 3 false).2 = [("amazon", "https://a")] ∧
    get_links { } = [] :=
  ⟨links_roundtrip.1 { } [("amazon", "https://a")] 3 false
      (set_links { } [("amazon", "https://a")] (some adminEmail) (some adminPassword) 3 false).1
      (set_links { } [("amazon", "https://a")] (some adminEmail) (some adminPassword) 3 false).2
      (by decide) rfl,
    links_roundtrip.2 { } rfl⟩

/-- C7: telemetry failures never change a primary result — a failed click
append or counter increment still yields the redirect URL, and a failed
audit append still yields ok from `set_links`. -/
theorem telemetry_failure_swallowed :
    (∀ (s : DB) (pid : String) (uid ip : Option String) (f1 f2 : Bool)
        (p : Product) (l : String),
        s.products.lookup pid = some p → p.affiliate_link = some l → l ≠ "" →
        (redirect_product s pid uid ip f1 f2).1 = .ok l) ∧
    (∀ (s : DB) (platform : String) (uid ip : Option String) (f : Bool) (u : String),
        ((s.adminsettings.head?.map AdminSettingsDoc.links).getD []).lookup (strLower platform)
            = some u → u ≠ "" →
        (redirect_platform s platform uid ip f).1 = .ok u) ∧
    (∀ (s : DB) (M : List (String × String)) (now : Nat) (f : Bool),
        (set_links s M (some adminEmail) (some adminPassword) now f).1 = .ok ()) := by
  refine ⟨?_, ?_, ?_⟩
  · intro s pid uid ip f1 f2 p l hp hl hne
    simp [redirect_product, hp, hl, hne]
  · intro s platform uid ip f u hu hne
    simp [redirect_platform, hu, hne]
  · intro s M now f
    cases hs : s.adminsettings <;> cases f <;> simp [set_links, hs]

/-- C7 witness: both redirects and the links write succeed with every
telemetry write failing. -/
theorem telemetry_failure_swallowed_witness :
    (redirect_product wDB1 "p1" none none true true).1 = .ok "https://vendor/x" ∧
    (redirect_platform wDB2 "AMAZON" none none true).1 = .ok "https://amazon.example/aff" ∧
    (set_links wDB2 [] (some adminEmail) (some adminPassword) 9 true).1 = .ok () :=
  ⟨telemetry_failure_swallowed.1 wDB1 "p1" none none true true wProduct1 "https://vendor/x"
      (by decide) (by decide) (by decide),
    telemetry_failure_swallowed.2.1 wDB2 "AMAZON" none none true "https://amazon.example/aff"
      (by decide) (by decide),
    telemetry_failure_swallowed.2.2 wDB2 [] 9 true⟩

/-- C5: an owner's partial update sets exactly the supplied fields, leaves
every absent field unchanged (no field is overwritten with null), never
touches `clicks`/`orders`/`affiliate_id`, and stamps `updated_at` with the
current (strictly newer) time. -/
theorem update_product_partial_frame (s : DB) (pid : String) (req : ProductUpdateRequest)
    (uid : String) (now : Nat) (p : Product)
    (hp : s.products.lookup pid = some p) (hown : p.affiliate_id = uid)
    (hnow : p.updated_at < now) :
    (update_product s pid req uid now).1 = .ok () ∧
    ∃ p', (update_product s pid req uid now).2.products.lookup pid = some p' ∧
      (req.images = none → p'.images = p.images) ∧
      (∀ v, req.images = some v → p'.images = v) ∧
      (req.title = none → p'.title = p.title) ∧
      (∀ v, req.title = some v → p'.title = v) ∧
      (req.description = none → p'.description = p.description) ∧
      (∀ v, req.description = some v → p'.description = some v) ∧
      (req.price = none → p'.price = p.price) ∧
      (∀ v, req.price = some v → p'.price = v) ∧
      (req.vendor = none → p'.vendor = p.vendor) ∧
      (∀ v, req.vendor = some v → p'.vendor = v) ∧
      (req.category = none → p'.category = p.category) ∧
      (∀ v, req.category = some v → p'.category = some v) ∧
      (req.tags = none → p'.tags = p.tags) ∧
      (∀ v, req.tags = some v → p'.tags = v) ∧
      (req.rating = none → p'.rating = p.rating) ∧
      (∀ v, req.rating = some v → p'.rating = some v) ∧
      (req.affiliate_link = none → p'.affiliate_link = p.affiliate_link) ∧
      (∀ v, req.affiliate_link = some v → p'.affiliate_link = some v) ∧
      (req.hot_deal = none → p'.hot_deal = p.hot_deal) ∧
      (∀ v, req.hot_deal = some v → p'.hot_deal = v) ∧
      (req.hot_deal_expiry = none → p'.hot_deal_expiry = p.hot_deal_expiry) ∧
      (∀ v, req.hot_deal_expiry = some v → p'.hot_deal_expiry = some v) ∧
      (req.featured = none → p'.featured = p.featured) ∧
      (∀ v, req.featured = some v → p'.featured = v) ∧
      p'.clicks = p.clicks ∧ p'.orders = p.orders ∧ p'.affiliate_id = p.affiliate_id ∧
      p'.updated_at = now ∧ p.updated_at < p'.updated_at := by
  have hok : ¬ (p.affiliate_id ≠ uid) := by simp [hown]
  simp only [update_product]
  rw [hp]
  simp only [if_neg hok]
  refine ⟨?_, applyUpdate req now p, ?_, ?_, ?_, ?_, ?_, ?_, ?_, ?_, ?_, ?_, ?_, ?_,
    ?_, ?_, ?_, ?_, ?_, ?_, ?_, ?_, ?_, ?_, ?_, ?_, ?_, ?_, ?_, ?_, ?_, ?_⟩
  all_goals first
    | trivial
    | exact hnow
    | (rw [lookup_updateById, hp]; simp)
    | (intro h; simp [applyUpdate, h])
    | (intro v hv; simp [applyUpdate, hv])

/-- C5 witness: patching only the price at a concrete state. -/
theorem update_product_partial_frame_witness :
    (update_product wDB1 "p1" wPatchReq "affA" 5).1 = .ok () ∧
    ∃ p', (update_product wDB1 "p1" wPatchReq "affA" 5).2.products.lookup "p1" = some p' ∧
      p'.price = 999 ∧ p'.title = wProduct1.title ∧
      p'.affiliate_link = wProduct1.affiliate_link ∧
      p'.clicks = wProduct1.clicks ∧ p'.orders = wProduct1.orders ∧
      p'.affiliate_id = wProduct1.affiliate_id ∧ wProduct1.updated_at < p'.updated_at :=
  have h := update_product_partial_frame wDB1 "p1" wPatchReq "affA" 5 wProduct1
    (by decide) (by decide) (by decide)
  have ⟨p', hp', himn, him, htn, ht, hdn, hd, hpn, hpr, hvn, hv, hcn, hc, htgn, htg,
    hrn, hr, haln, hal, hhdn, hhd, hhen, hhe, hfn, hf, hck, hor, haf, hup, hlt⟩ := h.2
  ⟨h.1, p', hp', hpr 999 rfl, htn rfl, haln rfl, hck, hor, haf, hlt⟩

/-- C6: when the AdminSettings singleton is absent, or the links map has no
entry for the requested platform — whether read as "no key equals the lookup
key `platform.lower()`" or as "no key matches the platform even up to letter
case" — `redirect_platform` fails with 404 "Link not available yet." and
performs no write at all. -/
theorem redirect_platform_notfound_no_write (s : DB) (platform : String)
    (uid ip : Option String) (f : Bool)
    (habs : s.adminsettings.head? = none ∨
      (∀ e ∈ (s.adminsettings.head?.map AdminSettingsDoc.links).getD [],
        e.1 ≠ strLower platform) ∨
      ∀ e ∈ (s.adminsettings.head?.map AdminSettingsDoc.links).getD [],
        strLower e.1 ≠ strLower platform) :
    redirect_platform s platform uid ip f = (.error ⟨404, "Link not available yet."⟩, s) := by
  have hnone : ((s.adminsettings.head?.map AdminSettingsDoc.links).getD []).lookup
      (strLower platform) = none := by
    rcases habs with h | h | h
    · simp [h]
    · exact lookup_eq_none_of_keys_ne _ _ h
    · refine lookup_eq_none_of_keys_ne _ _ fun e he hkey => ?_
      exact h e he (by rw [hkey, strLower_strLower])
  simp [redirect_platform, hnone]

/-- C6 witness: a configured store whose only key is for another platform. -/
theorem redirect_platform_notfound_no_write_witness :
    redirect_platform wDB2 "Twitter" (some "u1") (some "198.51.100.7") false
        = (.error ⟨404, "Link not available yet."⟩, wDB2) :=
  redirect_platform_notfound_no_write wDB2 "Twitter" (some "u1") (some "198.51.100.7") false
    (Or.inr (Or.inl (by decide)))

/-- C9: `clicks`/`orders` are monotone non-negative counters across the core
operations — creation stores them as 0 with `affiliate_id` the creating user,
`redirect_product` changes `clicks` by at most +1 and never downward, and the
update interface cannot touch `clicks`, `orders` or `affiliate_id`. -/
theorem counters_monotone_invariant :
    (∀ (s : DB) (req : ProductCreateRequest) (uid pid : String) (now : Nat)
        (r : String) (s' : DB),
        create_product s req uid pid now = (.ok r, s') →
        ∃ p, s'.products = s.products ++ [(pid, p)] ∧
          p.clicks = 0 ∧ p.orders = 0 ∧ p.affiliate_id = uid) ∧
    (∀ (s : DB) (pid : String) (uid ip : Option String) (f1 f2 : Bool)
        (j : String) (p : Product),
        s.products.lookup j = some p →
        ∃ p', (redirect_product s pid uid ip f1 f2).2.products.lookup j = some p' ∧
          p.clicks ≤ p'.clicks ∧ p'.clicks ≤ p.clicks + 1 ∧
          p'.orders = p.orders ∧ p'.affiliate_id = p.affiliate_id) ∧
    (∀ (s : DB) (pid : String) (req : ProductUpdateRequest) (uid : String) (now : Nat)
        (j : String) (p : Product),
        s.products.lookup j = some p →
        ∃ p', (update_product s pid req uid now).2.products.lookup j = some p' ∧
          p'.clicks = p.clicks ∧ p'.orders = p.orders ∧
          p'.affiliate_id = p.affiliate_id) := by
  refine ⟨?_, ?_, ?_⟩
  · intro s req uid pid now r s' hcr
    cases hu : s.users.lookup uid with
    | none => simp [create_product, hu] at hcr
    | some aff =>
      by_cases hrole : aff.role = "affiliate"
      · have hnot : ¬ (aff.role ≠ "affiliate") := by simp [hrole]
        simp only [create_product, hu, if_neg hnot] at hcr
        injection hcr with h1 h2
        subst h2
        exact ⟨_, rfl, rfl, rfl, rfl⟩
      · simp [create_product, hu, hrole] at hcr
  · intro s pid uid ip f1 f2 j p hp
    cases hfind : s.products.lookup pid with
    | none =>
      refine ⟨p, ?_, le_refl _, by omega, rfl, rfl⟩
      simp [redirect_product, hfind, hp]
    | some prod =>
      cases hl : prod.affiliate_link with
      | none =>
        refine ⟨p, ?_, le_refl _, by omega, rfl, rfl⟩
        simp [redirect_product, hfind, hl, hp]
      | some link =>
        by_cases hne : link = ""
        · refine ⟨p, ?_, le_refl _, by omega, rfl, rfl⟩
          simp [redirect_product, hfind, hl, hne, hp]
        · have hprods : (redirect_product s pid uid ip f1 f2).2.products
              = if f1 then s.products
                else updateById s.products pid (fun q => { q with clicks := q.clicks + 1 }) := by
            simp only [redirect_product, hfind, hl, if_neg hne]
            cases f1 <;> cases f2 <;> rfl
          rw [hprods]
          cases f1 with
          | true => exact ⟨p, by simpa using hp, le_refl _, by omega, rfl, rfl⟩
          | false =>
            rw [if_neg (by simp), lookup_updateById, hp]
            by_cases hj : j = pid
            · refine ⟨{ p with clicks := p.clicks + 1 }, by simp [hj], by simp, by simp, rfl, rfl⟩
            · exact ⟨p, by simp [hj], le_refl _, by omega, rfl, rfl⟩
  · intro s pid req uid now j p hp
    cases hfind : s.products.lookup pid with
    | none =>
      refine ⟨p, ?_, rfl, rfl, rfl⟩
      simp [update_product, hfind, hp]
    | some prod =>
      by_cases hown : prod.affiliate_id ≠ uid
      · refine ⟨p, ?_, rfl, rfl, rfl⟩
        simp [update_product, hfind, hown, hp]
      · have hprods : (update_product s pid req uid now).2.products
              = updateById s.products pid (applyUpdate req now) := by
          simp only [update_product, hfind, if_neg hown]
        rw [hprods, lookup_updateById, hp]
        by_cases hj : j = pid
        · exact ⟨applyUpdate req now p, by simp [hj], rfl, rfl, rfl⟩
        · exact ⟨p, by simp [hj], rfl, rfl, rfl⟩

/-- C9 witness: create, then redirect, then patch, at concrete states. -/
theorem counters_monotone_invariant_witness :
    (∃ p, (create_product wDB9 wCreateReq "affA" "pNew" 1).2.products
        = wDB9.products ++ [("pNew", p)] ∧
        p.clicks = 0 ∧ p.orders = 0 ∧ p.affiliate_id = "affA") ∧
    (∃ p', (redirect_product wDB1 "p1" none none false false).2.products.lookup "p1"
        = some p' ∧ wProduct1.clicks ≤ p'.clicks ∧ p'.clicks ≤ wProduct1.clicks + 1 ∧
        p'.orders = wProduct1.orders ∧ p'.affiliate_id = wProduct1.affiliate_id) ∧
    (∃ p', (update_product wDB1 "p1" wPatchReq "affA" 5).2.products.lookup "p1"
        = some p' ∧ p'.clicks = wProduct1.clicks ∧ p'.orders = wProduct1.orders ∧
        p'.affiliate_id = wProduct1.affiliate_id) :=
  ⟨counters_monotone_invariant.1 wDB9 wCreateReq "affA" "pNew" 1 "pNew"
      (create_product wDB9 wCreateReq "affA" "pNew" 1).2 (by decide),
    counters_monotone_invariant.2.1 wDB1 "p1" none none false false "p1" wProduct1 (by decide),
    counters_monotone_invariant.2.2 wDB1 "p1" wPatchReq "affA" 5 "p1" wProduct1 (by decide)⟩

/-- C2 counterexample: the stored links map holds the key "Amazon"; the
request "amazon" equals it up to letter case, yet the lookup fails with 404 —
only the request is lowercased, stored keys are matched case-sensitively. -/
theorem redirect_platform_case_counterexample :
    ("Amazon", "https://amazon.example")
        ∈ (cexDB2.adminsettings.head?.map AdminSettingsDoc.links).getD [] ∧
    strLower "amazon" = strLower "Amazon" ∧
    (redirect_platform cexDB2 "amazon" none none false).1
        = .error ⟨404, "Link not available yet."⟩ :=
  ⟨by decide, by decide, by decide⟩

/-- C2 (amended): platform resolution lowercases only the request — it
succeeds exactly on an entry whose stored key equals `platform.lower()`
verbatim and whose URL is non-empty, and otherwise fails with 404. -/
theorem redirect_platform_lowercase_lookup (s : DB) (platform : String)
    (uid ip : Option String) (f : Bool) (d : AdminSettingsDoc)
    (hd : s.adminsettings.head? = some d) :
    (∀ u, d.links.lookup (strLower platform) = some u → u ≠ "" →
        (redirect_platform s platform uid ip f).1 = .ok u) ∧
    (d.links.lookup (strLower platform) = none →
        (redirect_platform s platform uid ip f).1
            = .error ⟨404, "Link not available yet."⟩) := by
  constructor
  · intro u hu hne
    simp [redirect_platform, hd, hu, hne]
  · intro hnone
    simp [redirect_platform, hd, hnone]

/-- C2 amended witness: an exact lowercase key resolves; a missing key 404s. -/
theorem redirect_platform_lowercase_lookup_witness :
    (redirect_platform wDB2 "AMAZON" none none false).1 = .ok "https://amazon.example/aff" ∧
    (redirect_platform wDB2 "flipkart" none none false).1
        = .error ⟨404, "Link not available yet."⟩ :=
  ⟨(redirect_platform_lowercase_lookup wDB2 "AMAZON" none none false _ rfl).1
      "https://amazon.example/aff" (by decide) (by decide),
    (redirect_platform_lowercase_lookup wDB2 "flipkart" none none false _ rfl).2 (by decide)⟩

/-- C3 counterexample: with `limit = 0` the result is NOT truncated to the
requested limit — PyMongo's `limit(0)` disables the bound, so one stored
product is returned even though the caller asked for at most 0. -/
theorem list_products_limit_zero_counterexample :
    ¬ ((list_products cexDB3 none none none 0).length ≤ 0) := by
  decide

/-- C3 (amended): every non-zero limit bounds the result count by its absolute
value, and the declared default limit of 50 bounds it by 50; `limit = 0`
alone disables the bound. -/
theorem list_products_limit_bound :
    (∀ (s : DB) (q category : Option String) (hot : Option Bool) (limit : Int),
        limit ≠ 0 → (list_products s q category hot limit).length ≤ limit.natAbs) ∧
    (∀ (s : DB) (q category : Option String) (hot : Option Bool),
        (list_products s q category hot defaultLimit).length ≤ 50) := by
  have hmain : ∀ (s : DB) (q category : Option String) (hot : Option Bool) (limit : Int),
      limit ≠ 0 → (list_products s q category hot limit).length ≤ limit.natAbs := by
    intro s q category hot limit hlz
    rw [list_products, applyLimit, if_neg hlz]
    exact List.length_take_le _ _
  refine ⟨hmain, fun s q category hot => ?_⟩
  have h := hmain s q category hot defaultLimit (by decide)
  simpa using h

/-- C3 witness: the bound at a concrete store, limit 1 and the default. -/
theorem list_products_limit_bound_witness :
    (list_products cexDB3 none none none 1).length ≤ (1 : Int).natAbs ∧
    (list_products cexDB3 none none none defaultLimit).length ≤ 50 :=
  ⟨list_products_limit_bound.1 cexDB3 none none none 1 (by decide),
    list_products_limit_bound.2 cexDB3 none none none⟩

/-- C4 counterexample: the query is passed to the store as a regular
expression, not a plain substring — `q = "a.c"` returns the product titled
"abc" although "a.c" occurs in none of its title/description/category. -/
theorem list_products_regex_counterexample :
    ("p4", cexProduct4) ∈ list_products cexDB4 (some "a.c") none none 50 ∧
    ¬ containsCI "a.c" cexProduct4.title ∧
    cexProduct4.description = none ∧ cexProduct4.category = none :=
  ⟨by decide, by decide, rfl, rfl⟩

/-- C4 (amended): for free-text queries without regex metacharacters the
filter is case-insensitive substring matching over title/description/category;
the category filter is exact (case-sensitive) equality; the hot-deal filter is
exact boolean equality; all supplied filters apply conjunctively. In general
`q` is interpreted as a case-insensitive regular expression. -/
theorem list_products_filter_sound (s : DB) (q category : Option String) (hot : Option Bool)
    (limit : Int) (pid : String) (p : Product)
    (hq : ∀ qs, q = some qs → '.' ∉ qs.data)
    (hmem : (pid, p) ∈ list_products s q category hot limit) :
    (∀ qs, q = some qs → qs ≠ "" →
        (containsCI qs p.title ∨
         (∃ d, p.description = some d ∧ containsCI qs d) ∨
         (∃ c, p.category = some c ∧ containsCI qs c))) ∧
    (∀ c, category = some c → c ≠ "" → p.category = some c) ∧
    (∀ b, hot = some b → p.hot_deal = b) := by
  have hmem' : (pid, p) ∈ s.products.filter (fun e => productMatches q category hot e.2) := by
    rw [list_products, applyLimit] at hmem
    split at hmem
    · exact hmem
    · exact List.mem_of_mem_take hmem
  have hcond : productMatches q category hot p = true := by
    simpa using (List.mem_filter.mp hmem').2
  rw [productMatches.eq_def, Bool.and_eq_true, Bool.and_eq_true] at hcond
  obtain ⟨⟨hqc, hcc⟩, hhc⟩ := hcond
  refine ⟨?_, ?_, ?_⟩
  · intro qs hqs hne
    rw [hqs] at hqc
    simp only [if_neg hne, Bool.or_eq_true] at hqc
    rcases hqc with (ht | hd) | hc
    · exact Or.inl ((regexSearchI_iff_containsCI qs p.title (hq qs hqs)).mp ht)
    · refine Or.inr (Or.inl ?_)
      cases hds : p.description with
      | none => rw [hds] at hd; simp at hd
      | some d =>
        rw [hds] at hd
        exact ⟨d, rfl, (regexSearchI_iff_containsCI qs d (hq qs hqs)).mp hd⟩
    · refine Or.inr (Or.inr ?_)
      cases hcs : p.category with
      | none => rw [hcs] at hc; simp at hc
      | some c =>
        rw [hcs] at hc
        exact ⟨c, rfl, (regexSearchI_iff_containsCI qs c (hq qs hqs)).mp hc⟩
  · intro c hcat hne
    rw [hcat] at hcc
    simp only [if_neg hne, decide_eq_true_eq] at hcc
    exact hcc
  · intro b hb
    rw [hb] at hhc
    simp only [decide_eq_true_eq] at hhc
    exact hhc

/-- C4 witness: the spec's own example — `q="phone"` with an exact category
and hot-deal filter at a concrete matching product. -/
theorem list_products_filter_sound_witness :
    ("pw4", wProduct4) ∈ list_products wDB4 (some "phone") (some "electronics") (some true) 50 ∧
    wProduct4.category = some "electronics" ∧ wProduct4.hot_deal = true :=
  have h1 : ∀ qs, (some "phone" : Option String) = some qs → '.' ∉ qs.data := fun qs h => by
    cases h
    decide
  have h2 : ("pw4", wProduct4)
      ∈ list_products wDB4 (some "phone") (some "electronics") (some true) 50 := by decide
  ⟨h2,
    (list_products_filter_sound wDB4 (some "phone") (some "electronics") (some true) 50
        "pw4" wProduct4 h1 h2).2.1 "electronics" rfl (by decide),
    (list_products_filter_sound wDB4 (some "phone") (some "electronics") (some true) 50
        "pw4" wProduct4 h1 h2).2.2 true rfl⟩
